import Mathlib

/-!
Verification development for the point-of-sale and reporting front-end.

The definitions below are a shallow embedding of the program logic:

* cart operations, the cart total and checkout from src/src/pages/pos/PosSales.tsx
  (addToCart, updateQuantity, removeFromCart, cartTotal, changeAmount, handleCheckout,
  including the per-line read-modify-write stock update loop);
* the client-side date-bucket filters from src/src/pages/pos/PosTransactions.tsx,
  with time modelled as integer milliseconds and days as aligned intervals of
  86400000 ms (startOfDay floors to the day boundary, endOfDay is the last
  millisecond of the day, matching the date-fns helpers used by the code);
* the monthly sales aggregation and chart series from
  src/src/pages/admin/SalesRevenueReport.tsx (a chart month with zero fetched
  orders is filled with random placeholder figures; the sampled random values
  appear as explicit parameters);
* the financial estimator from src/src/pages/admin/FinancialDashboard.tsx,
  with monetary values modelled as rationals.

Firestore documents are modelled as in-memory values: the products store is a
function from document id to the stored stock value, orders are records with
optional numeric fields (a missing field reads as 0 through getD, matching the
JS fallback), and a checkout returns the new client state, the new store and
the transaction record it persisted, if any.
-/

/-- Product record fetched from the products collection (PosSales.tsx, interface Product). -/
structure Product where
  id : String
  name : String
  price : Int
  category : String
  stock : Int
deriving DecidableEq

/-- One cart line (PosSales.tsx, interface CartItem). -/
structure CartItem where
  id : String
  name : String
  price : Int
  quantity : Int
  category : String
deriving DecidableEq

/-- addToCart from PosSales.tsx: refuses products with stock at most 0, increments an
existing line only when one more unit still fits in the stock, otherwise appends a
fresh line with quantity 1. -/
def addToCart (product : Product) (prevCart : List CartItem) : List CartItem :=
  if product.stock ≤ 0 then
    prevCart
  else
    match prevCart.find? (fun item => item.id == product.id) with
    | some existingItem =>
      if product.stock < existingItem.quantity + 1 then
        prevCart
      else
        prevCart.map (fun item =>
          if item.id == product.id then
            { item with quantity := item.quantity + 1 }
          else item)
    | none =>
      prevCart ++ [{ id := product.id, name := product.name, price := product.price,
                     quantity := 1, category := product.category }]

/-- Body of the map inside updateQuantity from PosSales.tsx: a line keeps its value
when the requested new quantity would drop below 1 or exceed the stock of the
product found in the fetched product list. -/
def updateItem (products : List Product) (targetId : String) (change : Int)
    (item : CartItem) : CartItem :=
  if item.id == targetId then
    if item.quantity + change < 1 then
      item
    else
      match products.find? (fun p => p.id == targetId) with
      | some product =>
        if product.stock < item.quantity + change then
          item
        else
          { item with quantity := item.quantity + change }
      | none => { item with quantity := item.quantity + change }
  else item

/-- updateQuantity from PosSales.tsx. -/
def updateQuantity (products : List Product) (targetId : String) (change : Int)
    (prevCart : List CartItem) : List CartItem :=
  prevCart.map (updateItem products targetId change)

/-- removeFromCart from PosSales.tsx: unconditional removal by id. -/
def removeFromCart (targetId : String) (prevCart : List CartItem) : List CartItem :=
  prevCart.filter (fun item => !(item.id == targetId))

/-- cartTotal from PosSales.tsx: reduce over the cart with accumulator starting at 0. -/
def cartTotal (cart : List CartItem) : Int :=
  cart.foldl (fun total item => total + item.price * item.quantity) 0

/-- Numeric reading of the cash amount input field: the JS Number conversion maps the
empty input to 0 and a numeric input to its value. -/
def numVal : Option Int → Int
  | none => 0
  | some n => n

/-- Client state touched by handleCheckout: the cart and the transient form fields. -/
structure CheckoutState where
  cart : List CartItem
  customerName : String
  paymentMethod : String
  cashAmount : Option Int
deriving DecidableEq

/-- changeAmount from PosSales.tsx: Number(cashAmount) minus the cart total. -/
def changeAmount (st : CheckoutState) : Int :=
  numVal st.cashAmount - cartTotal st.cart

/-- Transaction document written to pos_transactions: the cash fields are present
exactly when the payment method is Tunai. -/
structure TransactionRec where
  items : List CartItem
  total : Int
  cashierName : String
  timestamp : Int
  paymentMethod : String
  customerName : String
  cashAmount : Option Int
  changeAmount : Option Int
deriving DecidableEq

/-- One iteration of the stock update loop in handleCheckout: re-read the stock of
the document for the line, and when the document exists overwrite its stock with
the re-read value minus the line quantity; a missing document is skipped. -/
def stockStep (st : String → Option Int) (item : CartItem) : String → Option Int :=
  match st item.id with
  | some currentStock =>
    fun pid => if pid == item.id then some (currentStock - item.quantity) else st pid
  | none => st

/-- The stock update loop of handleCheckout: sequentially per cart line, an
independent read-modify-write against the store. -/
def updateStockLoop (store : String → Option Int) (cart : List CartItem) :
    String → Option Int :=
  cart.foldl stockStep store

/-- Result of a checkout attempt: the client state afterwards, the store afterwards,
and the transaction document that was persisted, if any. -/
structure CheckoutOutcome where
  newState : CheckoutState
  newStore : String → Option Int
  txn : Option TransactionRec

/-- handleCheckout from PosSales.tsx: rejects an empty cart, rejects a Tunai payment
smaller than the cart total (both before any write), and otherwise persists the
transaction document, runs the stock update loop and clears the cart and the
transient form fields. -/
def handleCheckout (cashierName : String) (timestamp : Int)
    (st : CheckoutState) (store : String → Option Int) : CheckoutOutcome :=
  if st.cart.length = 0 then
    { newState := st, newStore := store, txn := none }
  else if st.paymentMethod = "Tunai" ∧ numVal st.cashAmount < cartTotal st.cart then
    { newState := st, newStore := store, txn := none }
  else
    let txnData : TransactionRec :=
      { items := st.cart,
        total := cartTotal st.cart,
        cashierName := cashierName,
        timestamp := timestamp,
        paymentMethod := st.paymentMethod,
        customerName := if st.customerName = "" then "Pelanggan" else st.customerName,
        cashAmount := if st.paymentMethod = "Tunai" then some (numVal st.cashAmount) else none,
        changeAmount := if st.paymentMethod = "Tunai" then some (changeAmount st) else none }
    { newState := { cart := [], customerName := "", paymentMethod := st.paymentMethod,
                    cashAmount := none },
      newStore := updateStockLoop store st.cart,
      txn := some txnData }

/-- Cart editing operations available in the sales page. -/
inductive CartOp where
  | add (product : Product)
  | update (targetId : String) (change : Int)
  | remove (targetId : String)
deriving DecidableEq

/-- Apply one cart operation, with the fetched product list fixed. -/
def applyOp (products : List Product) (cart : List CartItem) : CartOp → List CartItem
  | CartOp.add p => addToCart p cart
  | CartOp.update targetId change => updateQuantity products targetId change cart
  | CartOp.remove targetId => removeFromCart targetId cart

/-- Run a sequence of cart operations starting from the empty cart. -/
def runOps (products : List Product) (ops : List CartOp) : List CartItem :=
  ops.foldl (applyOp products) []

/-- Every add operation in the sequence adds a product taken from the fetched list,
which is how the sales page invokes addToCart. -/
def addsFromCatalog (products : List Product) (ops : List CartOp) : Bool :=
  ops.all (fun op =>
    match op with
    | CartOp.add p => decide (p ∈ products)
    | CartOp.update _ _ => true
    | CartOp.remove _ => true)

/-- Milliseconds in one day. -/
def dayMs : Int := 86400000

/-- startOfDay: floor the timestamp to its day boundary. -/
def startOfDay (t : Int) : Int := dayMs * (t / dayMs)

/-- endOfDay: the last millisecond of the day of the timestamp. -/
def endOfDay (t : Int) : Int := startOfDay t + dayMs - 1

/-- subDays as used by the filters: go back a whole number of days. -/
def subDaysMs (t : Int) (n : Int) : Int := t - n * dayMs

/-- isWithinInterval from date-fns: inclusive on both ends. -/
def isWithinInterval (t intervalStart intervalEnd : Int) : Bool :=
  decide (intervalStart ≤ t ∧ t ≤ intervalEnd)

/-- The today bucket of PosTransactions.tsx. -/
def filterToday (now t : Int) : Bool :=
  isWithinInterval t (startOfDay now) (endOfDay now)

/-- The yesterday bucket of PosTransactions.tsx. -/
def filterYesterday (now t : Int) : Bool :=
  isWithinInterval t (startOfDay (subDaysMs now 1)) (endOfDay (subDaysMs now 1))

/-- The week bucket of PosTransactions.tsx: from the start of the day seven days
ago to the end of today. -/
def filterWeek (now t : Int) : Bool :=
  isWithinInterval t (startOfDay (subDaysMs now 7)) (endOfDay now)

/-- The month bucket of PosTransactions.tsx: from the start of the day thirty days
ago to the end of today. -/
def filterMonth (now t : Int) : Bool :=
  isWithinInterval t (startOfDay (subDaysMs now 30)) (endOfDay now)

/-- Order document from the orders collection; both numeric fields may be absent,
and the aggregations read an absent field as 0. -/
structure Order where
  total_price : Option ℚ
  shipping_fee : Option ℚ
deriving DecidableEq

/-- Monthly sales summary state (SalesRevenueReport.tsx, interface MonthlySales). -/
structure MonthlySales where
  totalOrders : Nat
  totalRevenue : ℚ
deriving DecidableEq

/-- The reduction of fetchMonthlyData in SalesRevenueReport.tsx over the orders
fetched for the selected month: count the documents and sum total_price with a
missing field counted as 0. -/
def fetchMonthlySales (orders : List Order) : MonthlySales :=
  { totalOrders := orders.length,
    totalRevenue := orders.foldl (fun acc o => acc + o.total_price.getD 0) 0 }

/-- One point of the sales chart (SalesRevenueReport.tsx, interface ChartData,
without the month label). -/
structure ChartEntry where
  orders : Nat
  revenue : ℚ
deriving DecidableEq

/-- One month of the sales chart in fetchChartData of SalesRevenueReport.tsx: the
fetched orders are counted and summed, but a month with zero fetched orders is
replaced by random placeholder figures. The two sampled random values, each drawn
from Math.random scaled and floored by the code, enter as randO and randR. -/
def salesChartEntry (fetched : List Order) (randO randR : Nat) : ChartEntry :=
  let orders := fetched.length
  let revenue := fetched.foldl (fun acc o => acc + o.total_price.getD 0) 0
  if orders = 0 then
    { orders := randO % 50 + 5, revenue := ((randR % 1000000 : Nat) : ℚ) + 50000 }
  else
    { orders := orders, revenue := revenue }

/-- The chart series of fetchChartData: one independently aggregated entry per
month of the trailing window, oldest first. -/
def fetchChartData (monthOrders : List (List Order)) (rand : List (Nat × Nat)) :
    List ChartEntry :=
  (monthOrders.zip rand).map (fun mr => salesChartEntry mr.1 mr.2.1 mr.2.2)

/-- Monthly financial summary (FinancialDashboard.tsx, interface MonthlyFinancials). -/
structure MonthlyFinancials where
  revenue : ℚ
  shippingFees : ℚ
  grossProfit : ℚ
  expenses : ℚ
  netProfit : ℚ
deriving DecidableEq

/-- The reduction of fetchMonthlyData in FinancialDashboard.tsx: sum revenue and
shipping fees over the fetched orders, then apply the fixed cost heuristic and
the hardcoded monthly expense constant. -/
def fetchMonthlyFinancials (orders : List Order) : MonthlyFinancials :=
  let totalRevenue := orders.foldl (fun acc o => acc + o.total_price.getD 0) 0
  let totalShippingFees := orders.foldl (fun acc o => acc + o.shipping_fee.getD 0) 0
  let productCost := (totalRevenue - totalShippingFees) * (0.5 : ℚ)
  let grossProfit := totalRevenue - productCost
  let expenses : ℚ := 50000
  let netProfit := grossProfit - expenses
  { revenue := totalRevenue, shippingFees := totalShippingFees,
    grossProfit := grossProfit, expenses := expenses, netProfit := netProfit }

/-- One point of the financial chart (FinancialDashboard.tsx, interface ChartData,
without the month label). -/
structure FinChartEntry where
  revenue : ℚ
  shippingFees : ℚ
  grossProfit : ℚ
  netProfit : ℚ
deriving DecidableEq

/-- One month of the financial chart in fetchChartData of FinancialDashboard.tsx. -/
def finChartEntry (orders : List Order) : FinChartEntry :=
  let revenue := orders.foldl (fun acc o => acc + o.total_price.getD 0) 0
  let shippingFees := orders.foldl (fun acc o => acc + o.shipping_fee.getD 0) 0
  let productCost := (revenue - shippingFees) * (0.5 : ℚ)
  let grossProfit := revenue - productCost
  let netProfit := grossProfit - 50000
  { revenue := revenue, shippingFees := shippingFees,
    grossProfit := grossProfit, netProfit := netProfit }

/-- The financial chart series: one independently aggregated entry per month. -/
def finChartData (monthOrders : List (List Order)) : List FinChartEntry :=
  monthOrders.map finChartEntry

/-- Sample product used by concrete witnesses. -/
def demoProduct : Product :=
  { id := "p1", name := "Apel", price := 1000, category := "Buah", stock := 2 }

/-- Sample fetched product list used by concrete witnesses. -/
def demoProducts : List Product := [demoProduct]

/-- Sample operation sequence used by concrete witnesses: it exercises the stock
ceiling, the lower clamp and removal. -/
def demoOps : List CartOp :=
  [CartOp.add demoProduct, CartOp.add demoProduct, CartOp.add demoProduct,
   CartOp.update "p1" (-5), CartOp.remove "p1", CartOp.add demoProduct]

/-- Sample cart line used by concrete witnesses. -/
def demoItem : CartItem :=
  { id := "p1", name := "Apel", price := 1000, quantity := 2, category := "Buah" }

/-- Sample checkout state used by concrete witnesses: one line, Tunai, cash 5000. -/
def demoCashState : CheckoutState :=
  { cart := [demoItem], customerName := "", paymentMethod := "Tunai",
    cashAmount := some 5000 }

/-- Sample checkout state with an empty cart. -/
def demoEmptyState : CheckoutState :=
  { cart := [], customerName := "", paymentMethod := "Tunai", cashAmount := none }

/-- Sample checkout state with a non-Tunai payment method and no cash input. -/
def demoNonCashState : CheckoutState :=
  { cart := [demoItem], customerName := "", paymentMethod := "Non-Tunai",
    cashAmount := none }

/-- Sample store holding stock 5 for the sample product. -/
def demoStore : String → Option Int :=
  fun pid => if pid == "p1" then some 5 else none

/-- Store whose re-read stock 1 is below the sample line quantity 2. -/
def lowStockStore : String → Option Int :=
  fun pid => if pid == "p1" then some 1 else none

/-- Sample order used by concrete witnesses. -/
def demoOrder : Order := { total_price := some 800, shipping_fee := some 200 }

/-- Folding the cart total from any accumulator splits off the accumulator. -/
lemma cartTotal_foldl (cart : List CartItem) (a : Int) :
    cart.foldl (fun total item => total + item.price * item.quantity) a
      = a + (cart.map (fun item => item.price * item.quantity)).sum := by
  induction cart generalizing a with
  | nil => simp
  | cons c rest ih =>
    simp only [List.foldl_cons, List.map_cons, List.sum_cons, ih]
    ring

/-- Claim C4: the cart total equals the sum over all lines of price times quantity,
and since it is recomputed from the current lines, the equality holds after any
sequence of addToCart, updateQuantity and removeFromCart operations. -/
theorem cartTotal_eq_sum :
    (∀ cart : List CartItem,
      cartTotal cart = (cart.map (fun item => item.price * item.quantity)).sum)
    ∧ ∀ (products : List Product) (ops : List CartOp),
        cartTotal (runOps products ops)
          = ((runOps products ops).map (fun item => item.price * item.quantity)).sum := by
  constructor
  · intro cart
    simpa using cartTotal_foldl cart 0
  · intro products ops
    simpa using cartTotal_foldl (runOps products ops) 0

/-- A timestamp lies between the start and the end of its own day. -/
lemma startOfDay_le_self (t : Int) : startOfDay t ≤ t ∧ t ≤ endOfDay t := by
  have hpos : (0 : Int) < dayMs := by norm_num [dayMs]
  have h := Int.ediv_add_emod t dayMs
  have h1 : 0 ≤ t % dayMs := Int.emod_nonneg t (by norm_num [dayMs])
  have h2 : t % dayMs < dayMs := Int.emod_lt_of_pos t hpos
  unfold endOfDay startOfDay
  omega

/-- Going back whole days shifts the day boundary by the same number of days. -/
lemma startOfDay_shift (t n : Int) :
    startOfDay (subDaysMs t n) = startOfDay t - n * dayMs := by
  have hne : dayMs ≠ 0 := by norm_num [dayMs]
  unfold startOfDay subDaysMs
  have heq : t - n * dayMs = t + -n * dayMs := by ring
  rw [heq, Int.add_mul_ediv_right t (-n) hne]
  ring

/-- Claim C7: a transaction timestamped exactly at now is accepted by the today,
week and month buckets and rejected by the yesterday bucket. -/
theorem date_filters_at_now (now : Int) :
    filterToday now now = true ∧ filterWeek now now = true ∧
    filterMonth now now = true ∧ filterYesterday now now = false := by
  obtain ⟨h1, h2⟩ := startOfDay_le_self now
  have hs1 := startOfDay_shift now 1
  have hs7 := startOfDay_shift now 7
  have hs30 := startOfDay_shift now 30
  have hpos : (0 : Int) < dayMs := by norm_num [dayMs]
  simp only [filterToday, filterWeek, filterMonth, filterYesterday, isWithinInterval,
    endOfDay, decide_eq_true_eq, decide_eq_false_iff_not, not_and, not_le] at *
  refine ⟨⟨h1, h2⟩, ⟨?_, ?_⟩, ⟨?_, ?_⟩, ?_⟩ <;> omega

/-- Claim C2: an empty cart, or a Tunai payment with cash below the cart total, is
rejected before any write: no transaction document is created, the store is left
untouched, and the cart and the form fields keep their values. -/
theorem checkout_rejects_invalid (cashierName : String) (timestamp : Int)
    (st : CheckoutState) (store : String → Option Int)
    (h : st.cart = [] ∨ (st.paymentMethod = "Tunai" ∧ numVal st.cashAmount < cartTotal st.cart)) :
    handleCheckout cashierName timestamp st store =
      { newState := st, newStore := store, txn := none } := by
  rcases h with h | h
  · simp [handleCheckout, h]
  · unfold handleCheckout
    by_cases hc : st.cart.length = 0
    · simp [hc]
    · simp [hc, h]

/-- Concrete run of checkout_rejects_invalid on the sample empty cart state. -/
theorem checkout_rejects_invalid_witness :
    handleCheckout "Kasir" 0 demoEmptyState demoStore =
      { newState := demoEmptyState, newStore := demoStore, txn := none } :=
  checkout_rejects_invalid "Kasir" 0 demoEmptyState demoStore (Or.inl rfl)

/-- Claim C3: a successful Tunai checkout persists a transaction whose cash amount
is the entered cash and whose change amount is that cash minus the cart total. -/
theorem checkout_cash_change (cashierName : String) (timestamp : Int)
    (st : CheckoutState) (store : String → Option Int)
    (hne : st.cart ≠ [])
    (hpm : st.paymentMethod = "Tunai")
    (hcash : cartTotal st.cart ≤ numVal st.cashAmount) :
    ∃ txn : TransactionRec,
      (handleCheckout cashierName timestamp st store).txn = some txn ∧
      txn.total = cartTotal st.cart ∧
      txn.cashAmount = some (numVal st.cashAmount) ∧
      txn.changeAmount = some (numVal st.cashAmount - cartTotal st.cart) := by
  have hlen : st.cart.length ≠ 0 := by
    simpa [List.length_eq_zero] using hne
  have hno : ¬ (st.paymentMethod = "Tunai" ∧ numVal st.cashAmount < cartTotal st.cart) := by
    rintro ⟨-, hlt⟩
    omega
  refine ⟨{ items := st.cart, total := cartTotal st.cart, cashierName := cashierName,
            timestamp := timestamp, paymentMethod := st.paymentMethod,
            customerName := if st.customerName = "" then "Pelanggan" else st.customerName,
            cashAmount := some (numVal st.cashAmount),
            changeAmount := some (numVal st.cashAmount - cartTotal st.cart) },
          ?_, rfl, rfl, rfl⟩
  have hlt : ¬ numVal st.cashAmount < cartTotal st.cart := not_lt.mpr hcash
  simp [handleCheckout, hlen, hno, hpm, hlt, changeAmount]

/-- Concrete run of checkout_cash_change: one line at price 1000 with quantity 2 and
cash 5000 gives total 2000 and change 3000, and the checkout succeeds. -/
theorem checkout_cash_change_witness :
    ∃ txn : TransactionRec,
      (handleCheckout "Kasir" 0 demoCashState demoStore).txn = some txn ∧
      txn.total = 2000 ∧
      txn.cashAmount = some 5000 ∧
      txn.changeAmount = some 3000 :=
  checkout_cash_change "Kasir" 0 demoCashState demoStore
    (by decide) (by decide) (by decide)

/-- Claim C10: with a non-empty cart and a payment method other than Tunai, checkout
performs no cash check and succeeds whatever the cash input, and the persisted
transaction carries no cash amount and no change amount field. -/
theorem checkout_noncash_no_cash_fields (cashierName : String) (timestamp : Int)
    (st : CheckoutState) (store : String → Option Int)
    (hne : st.cart ≠ [])
    (hpm : st.paymentMethod ≠ "Tunai") :
    ∃ txn : TransactionRec,
      (handleCheckout cashierName timestamp st store).txn = some txn ∧
      txn.cashAmount = none ∧
      txn.changeAmount = none := by
  have hlen : st.cart.length ≠ 0 := by
    simpa [List.length_eq_zero] using hne
  have hno : ¬ (st.paymentMethod = "Tunai" ∧ numVal st.cashAmount < cartTotal st.cart) := by
    rintro ⟨hp, -⟩
    exact hpm hp
  refine ⟨{ items := st.cart, total := cartTotal st.cart, cashierName := cashierName,
            timestamp := timestamp, paymentMethod := st.paymentMethod,
            customerName := if st.customerName = "" then "Pelanggan" else st.customerName,
            cashAmount := none, changeAmount := none },
          ?_, rfl, rfl⟩
  simp [handleCheckout, hlen, hno, hpm]

/-- Concrete run of checkout_noncash_no_cash_fields on the sample non-Tunai state
with an empty cash input. -/
theorem checkout_noncash_no_cash_fields_witness :
    ∃ txn : TransactionRec,
      (handleCheckout "Kasir" 0 demoNonCashState demoStore).txn = some txn ∧
      txn.cashAmount = none ∧
      txn.changeAmount = none :=
  checkout_noncash_no_cash_fields "Kasir" 0 demoNonCashState demoStore
    (by decide) (by decide)

/-- A stock update step leaves every other document untouched. -/
lemma stockStep_other (st : String → Option Int) (item : CartItem) (pid : String)
    (h : pid ≠ item.id) : stockStep st item pid = st pid := by
  unfold stockStep
  cases st item.id with
  | none => rfl
  | some s => simp [h]

/-- A stock update step on an existing document writes the re-read stock minus the
line quantity. -/
lemma stockStep_self (st : String → Option Int) (item : CartItem) (s : Int)
    (h : st item.id = some s) :
    stockStep st item item.id = some (s - item.quantity) := by
  unfold stockStep
  rw [h]
  simp

/-- Documents whose id matches no cart line are untouched by the whole loop. -/
lemma updateStockLoop_untouched (cart : List CartItem) (store : String → Option Int)
    (pid : String) (h : ∀ item ∈ cart, item.id ≠ pid) :
    updateStockLoop store cart pid = store pid := by
  induction cart generalizing store with
  | nil => rfl
  | cons c rest ih =>
    have hstep : updateStockLoop store (c :: rest) = updateStockLoop (stockStep store c) rest := rfl
    rw [hstep, ih (stockStep store c) (fun item hm => h item (List.mem_cons_of_mem c hm))]
    exact stockStep_other store c pid (fun he => h c (List.mem_cons_self c rest) he.symm)

/-- With pairwise distinct line ids, the loop maps the document of each line to its
re-read stock minus that line quantity. -/
lemma updateStockLoop_line (cart : List CartItem) (store : String → Option Int)
    (hnd : (cart.map CartItem.id).Nodup)
    (item : CartItem) (hmem : item ∈ cart) (s : Int) (hs : store item.id = some s) :
    updateStockLoop store cart item.id = some (s - item.quantity) := by
  induction cart generalizing store with
  | nil => cases hmem
  | cons c rest ih =>
    rw [List.map_cons, List.nodup_cons] at hnd
    have hstep : updateStockLoop store (c :: rest) = updateStockLoop (stockStep store c) rest := rfl
    rw [hstep]
    rcases List.mem_cons.mp hmem with h | h
    · subst h
      have hrest : ∀ j ∈ rest, j.id ≠ item.id := by
        intro j hj he
        exact hnd.1 (he ▸ List.mem_map_of_mem CartItem.id hj)
      rw [updateStockLoop_untouched rest (stockStep store item) item.id hrest]
      exact stockStep_self store item s hs
    · have hcne : item.id ≠ c.id := by
        intro he
        exact hnd.1 (he ▸ List.mem_map_of_mem CartItem.id h)
      have hkeep : stockStep store c item.id = some s := by
        rw [stockStep_other store c item.id hcne]
        exact hs
      exact ih (stockStep store c) hnd.2 h hkeep

/-- Claim C1: on any successful checkout, for every cart line the stock written for
that line equals the stock re-read from the store at checkout time minus the line
quantity; the loop runs sequentially, once per line. -/
theorem checkout_stock_decrement (cashierName : String) (timestamp : Int)
    (st : CheckoutState) (store : String → Option Int)
    (hsucc : (handleCheckout cashierName timestamp st store).txn.isSome = true)
    (hnd : (st.cart.map CartItem.id).Nodup)
    (item : CartItem) (hmem : item ∈ st.cart)
    (s : Int) (hs : store item.id = some s) :
    (handleCheckout cashierName timestamp st store).newStore item.id
      = some (s - item.quantity) := by
  by_cases hlen : st.cart.length = 0
  · simp [handleCheckout, hlen] at hsucc
  · by_cases hpay : st.paymentMethod = "Tunai" ∧ numVal st.cashAmount < cartTotal st.cart
    · simp [handleCheckout, hlen, hpay] at hsucc
    · have hns : (handleCheckout cashierName timestamp st store).newStore
          = updateStockLoop store st.cart := by
        simp [handleCheckout, hlen, hpay]
      rw [hns]
      exact updateStockLoop_line st.cart store hnd item hmem s hs

/-- Concrete run of checkout_stock_decrement: quantity 2 against re-read stock 5
leaves stock 3. -/
theorem checkout_stock_decrement_witness :
    (handleCheckout "Kasir" 0 demoCashState demoStore).newStore demoItem.id
      = some (5 - demoItem.quantity) :=
  checkout_stock_decrement "Kasir" 0 demoCashState demoStore
    (by decide) (by decide) demoItem (by decide) 5 (by decide)

/-- Counterexample to claim C6: a checkout whose line quantity 2 exceeds the re-read
stock 1 succeeds and writes the negative stock value -1 for the product. -/
theorem checkout_stock_can_go_negative :
    (handleCheckout "Kasir" 0 demoCashState lowStockStore).txn.isSome = true ∧
    (handleCheckout "Kasir" 0 demoCashState lowStockStore).newStore "p1" = some (-1) ∧
    ((-1 : Int) < 0) := by
  refine ⟨by decide, ?_, by decide⟩
  decide

/-- Claim C6 as amended: the stock written for a cart line is the re-read stock minus
the line quantity, and it is nonnegative whenever the re-read stock still covers the
line quantity; the code does not clamp, so a smaller re-read stock is written
negative. -/
theorem checkout_written_stock_nonneg (cashierName : String) (timestamp : Int)
    (st : CheckoutState) (store : String → Option Int)
    (hsucc : (handleCheckout cashierName timestamp st store).txn.isSome = true)
    (hnd : (st.cart.map CartItem.id).Nodup)
    (item : CartItem) (hmem : item ∈ st.cart)
    (s : Int) (hs : store item.id = some s)
    (hcover : item.quantity ≤ s) :
    ∃ s2 : Int,
      (handleCheckout cashierName timestamp st store).newStore item.id = some s2 ∧
      0 ≤ s2 := by
  by_cases hlen : st.cart.length = 0
  · simp [handleCheckout, hlen] at hsucc
  · by_cases hpay : st.paymentMethod = "Tunai" ∧ numVal st.cashAmount < cartTotal st.cart
    · simp [handleCheckout, hlen, hpay] at hsucc
    · have hns : (handleCheckout cashierName timestamp st store).newStore
          = updateStockLoop store st.cart := by
        simp [handleCheckout, hlen, hpay]
      refine ⟨s - item.quantity, ?_, by omega⟩
      rw [hns]
      exact updateStockLoop_line st.cart store hnd item hmem s hs

/-- Concrete run of checkout_written_stock_nonneg: re-read stock 5 covers quantity 2
and the written stock 3 is nonnegative. -/
theorem checkout_written_stock_nonneg_witness :
    ∃ s2 : Int,
      (handleCheckout "Kasir" 0 demoCashState demoStore).newStore demoItem.id = some s2 ∧
      0 ≤ s2 :=
  checkout_written_stock_nonneg "Kasir" 0 demoCashState demoStore
    (by decide) (by decide) demoItem (by decide) 5 (by decide) (by decide)

/-- Folding an order field from any accumulator splits off the accumulator. -/
lemma order_foldl (f : Order → ℚ) (orders : List Order) (a : ℚ) :
    orders.foldl (fun acc o => acc + f o) a = a + (orders.map f).sum := by
  induction orders generalizing a with
  | nil => simp
  | cons o rest ih =>
    simp only [List.foldl_cons, List.map_cons, List.sum_cons, ih]
    ring

/-- Counterexample to claim C8: for a month with zero fetched orders the chart entry
reports 5 orders and revenue 50000 even at the lowest random sample, while the
aggregation over the fetched orders reports 0; so the chart figures are not always
derived from the fetched orders. -/
theorem sales_chart_dummy_values :
    (fetchMonthlySales []).totalOrders = 0 ∧
    fetchChartData [[]] [(0, 0)] = [{ orders := 5, revenue := 50000 }] ∧
    (salesChartEntry [] 0 0).orders ≠ (fetchMonthlySales []).totalOrders := by
  refine ⟨rfl, ?_, by decide⟩
  norm_num [fetchChartData, salesChartEntry]

/-- Claim C8 as amended: the selected month aggregation always returns the count of
the fetched orders and the sum of their total_price values with a missing field
counted as 0; a chart month with at least one fetched order reports that same pair;
but a chart month with zero fetched orders is populated with random placeholder
figures, between 5 and 54 orders and revenue between 50000 and 1049999, instead of
the fetched data. The series has one independently computed entry per month. -/
theorem sales_aggregation_amended (orders fetched : List Order)
    (monthOrders : List (List Order)) (rand : List (Nat × Nat))
    (randO randR : Nat) (hne : fetched ≠ []) :
    (fetchMonthlySales orders).totalOrders = orders.length ∧
    (fetchMonthlySales orders).totalRevenue
      = (orders.map (fun o => o.total_price.getD 0)).sum ∧
    salesChartEntry fetched randO randR =
      { orders := fetched.length,
        revenue := (fetched.map (fun o => o.total_price.getD 0)).sum } ∧
    (5 ≤ (salesChartEntry [] randO randR).orders ∧
      (salesChartEntry [] randO randR).orders ≤ 54 ∧
      (50000 : ℚ) ≤ (salesChartEntry [] randO randR).revenue ∧
      (salesChartEntry [] randO randR).revenue ≤ 1049999) ∧
    fetchChartData monthOrders rand =
      (monthOrders.zip rand).map (fun mr => salesChartEntry mr.1 mr.2.1 mr.2.2) := by
  have hlen : fetched.length ≠ 0 := by
    simpa [List.length_eq_zero] using hne
  refine ⟨rfl, ?_, ?_, ⟨?_, ?_, ?_, ?_⟩, rfl⟩
  · simpa [fetchMonthlySales] using order_foldl (fun o => o.total_price.getD 0) orders 0
  · simp only [salesChartEntry, hlen, if_false, ite_false]
    have := order_foldl (fun o => o.total_price.getD 0) fetched 0
    simp only [zero_add] at this
    simp [this]
  · simp [salesChartEntry]
  · have : randO % 50 < 50 := Nat.mod_lt randO (by norm_num)
    simp only [salesChartEntry, List.length_nil, List.foldl_nil, if_true]
    omega
  · simp only [salesChartEntry, List.length_nil, List.foldl_nil, if_true]
    have h0 : (0 : ℚ) ≤ ((randR % 1000000 : Nat) : ℚ) := Nat.cast_nonneg _
    linarith
  · simp only [salesChartEntry, List.length_nil, List.foldl_nil, if_true]
    have hb : randR % 1000000 ≤ 999999 := by
      have : randR % 1000000 < 1000000 := Nat.mod_lt randR (by norm_num)
      omega
    have hq : ((randR % 1000000 : Nat) : ℚ) ≤ 999999 := by
      exact_mod_cast hb
    linarith

/-- Concrete run of sales_aggregation_amended on a one-order month. -/
theorem sales_aggregation_amended_witness :
    (fetchMonthlySales [demoOrder]).totalOrders = [demoOrder].length ∧
    (fetchMonthlySales [demoOrder]).totalRevenue
      = ([demoOrder].map (fun o => o.total_price.getD 0)).sum ∧
    salesChartEntry [demoOrder] 0 0 =
      { orders := [demoOrder].length,
        revenue := ([demoOrder].map (fun o => o.total_price.getD 0)).sum } ∧
    (5 ≤ (salesChartEntry [] 0 0).orders ∧
      (salesChartEntry [] 0 0).orders ≤ 54 ∧
      (50000 : ℚ) ≤ (salesChartEntry [] 0 0).revenue ∧
      (salesChartEntry [] 0 0).revenue ≤ 1049999) ∧
    fetchChartData [[demoOrder]] [(0, 0)] =
      ([[demoOrder]].zip [(0, 0)]).map (fun mr => salesChartEntry mr.1 mr.2.1 mr.2.2) :=
  sales_aggregation_amended [demoOrder] [demoOrder] [[demoOrder]] [(0, 0)] 0 0 (by decide)

/-- Claim C9: the financial estimator satisfies grossProfit equal to revenue minus
the estimated product cost of half of revenue minus shipping fees, and netProfit
equal to grossProfit minus the hardcoded monthly expense 50000, both for the
selected month aggregation and for every entry of the chart series. -/
theorem financial_profit_formulas (orders : List Order)
    (monthOrders : List (List Order)) (e : FinChartEntry)
    (he : e ∈ finChartData monthOrders) :
    ((fetchMonthlyFinancials orders).grossProfit
        = (fetchMonthlyFinancials orders).revenue
          - ((fetchMonthlyFinancials orders).revenue
              - (fetchMonthlyFinancials orders).shippingFees) * (0.5 : ℚ)) ∧
    (fetchMonthlyFinancials orders).expenses = 50000 ∧
    ((fetchMonthlyFinancials orders).netProfit
        = (fetchMonthlyFinancials orders).grossProfit - 50000) ∧
    (e.grossProfit = e.revenue - (e.revenue - e.shippingFees) * (0.5 : ℚ)) ∧
    (e.netProfit = e.grossProfit - 50000) := by
  obtain ⟨mo, hmo, rfl⟩ := List.mem_map.mp he
  exact ⟨rfl, rfl, rfl, rfl, rfl⟩

/-- Concrete run of financial_profit_formulas on a one-order month. -/
theorem financial_profit_formulas_witness :
    ((fetchMonthlyFinancials [demoOrder]).grossProfit
        = (fetchMonthlyFinancials [demoOrder]).revenue
          - ((fetchMonthlyFinancials [demoOrder]).revenue
              - (fetchMonthlyFinancials [demoOrder]).shippingFees) * (0.5 : ℚ)) ∧
    (fetchMonthlyFinancials [demoOrder]).expenses = 50000 ∧
    ((fetchMonthlyFinancials [demoOrder]).netProfit
        = (fetchMonthlyFinancials [demoOrder]).grossProfit - 50000) ∧
    ((finChartEntry [demoOrder]).grossProfit
        = (finChartEntry [demoOrder]).revenue
          - ((finChartEntry [demoOrder]).revenue
              - (finChartEntry [demoOrder]).shippingFees) * (0.5 : ℚ)) ∧
    ((finChartEntry [demoOrder]).netProfit
        = (finChartEntry [demoOrder]).grossProfit - 50000) :=
  financial_profit_formulas [demoOrder] [[demoOrder]] (finChartEntry [demoOrder])
    (List.mem_singleton.mpr rfl)

/-- updateItem never changes the id of a line. -/
lemma updateItem_id (products : List Product) (targetId : String) (change : Int)
    (item : CartItem) : (updateItem products targetId change item).id = item.id := by
  unfold updateItem
  by_cases h1 : (item.id == targetId) = true
  · simp only [h1, if_true]
    by_cases h2 : item.quantity + change < 1
    · simp [h2]
    · simp only [h2, if_false, ite_false]
      cases hf : products.find? (fun p => p.id == targetId) with
      | none => rfl
      | some product =>
        by_cases h3 : product.stock < item.quantity + change
        · simp [h3]
        · simp [h3]
  · simp [h1]

/-- Mapping an id-preserving line transformation over a cart keeps the id list. -/
lemma map_id_of_id_preserved (f : CartItem → CartItem)
    (hf : ∀ item, (f item).id = item.id) (cart : List CartItem) :
    (cart.map f).map CartItem.id = cart.map CartItem.id := by
  induction cart with
  | nil => rfl
  | cons c rest ih => simp [hf, ih]

/-- Per-line invariant: quantity at least 1 and at most the stock of the matching
product of the fetched list. -/
def cartLinesOk (products : List Product) (cart : List CartItem) : Prop :=
  ∀ item ∈ cart, 1 ≤ item.quantity ∧
    ∀ p ∈ products, p.id = item.id → item.quantity ≤ p.stock

/-- Cart invariant: pairwise distinct line ids and the per-line bounds. -/
def cartOk (products : List Product) (cart : List CartItem) : Prop :=
  (cart.map CartItem.id).Nodup ∧ cartLinesOk products cart

/-- The empty cart satisfies the invariant. -/
lemma cartOk_nil (products : List Product) : cartOk products [] := by
  constructor
  · simp
  · intro item hm
    cases hm

/-- addToCart preserves the cart invariant when the added product comes from the
fetched list. -/
lemma addToCart_ok (products : List Product) (hnd : (products.map Product.id).Nodup)
    (p : Product) (hp : p ∈ products) (cart : List CartItem)
    (h : cartOk products cart) : cartOk products (addToCart p cart) := by
  obtain ⟨hcnd, hlines⟩ := h
  unfold addToCart
  by_cases hstock : p.stock ≤ 0
  · simp only [hstock, if_true]
    exact ⟨hcnd, hlines⟩
  · simp only [hstock, if_false, ite_false]
    cases hfind : cart.find? (fun item => item.id == p.id) with
    | some existingItem =>
      by_cases hex : p.stock < existingItem.quantity + 1
      · simp only [hex, if_true]
        exact ⟨hcnd, hlines⟩
      · simp only [hex, if_false, ite_false]
        constructor
        · rw [map_id_of_id_preserved _ ?hf cart]
          · exact hcnd
          case hf =>
            intro item
            by_cases hi : (item.id == p.id) = true <;> simp [hi]
        · intro item2 hmem2
          obtain ⟨item, hitem, rfl⟩ := List.mem_map.mp hmem2
          obtain ⟨hq1, hqs⟩ := hlines item hitem
          by_cases hi : (item.id == p.id) = true
          · have hiid : item.id = p.id := by simpa using hi
            have hexid : existingItem.id = p.id := by
              simpa using List.find?_some hfind
            have hexmem : existingItem ∈ cart := List.mem_of_find?_eq_some hfind
            have hsame : item = existingItem :=
              List.inj_on_of_nodup_map hcnd hitem hexmem (by rw [hiid, hexid])
            simp only [hi, if_true]
            refine ⟨show (1 : Int) ≤ item.quantity + 1 by omega, ?_⟩
            intro q hq hqid
            have hqid2 : q.id = item.id := hqid
            have hqp : q = p :=
              List.inj_on_of_nodup_map hnd hq hp (by rw [hqid2, hiid])
            rw [hqp]
            show item.quantity + 1 ≤ p.stock
            rw [hsame]
            omega
          · simp only [hi, if_false, ite_false]
            exact ⟨hq1, hqs⟩
    | none =>
      constructor
      · rw [List.map_append]
        simp only [List.map_cons, List.map_nil]
        rw [List.nodup_append]
        refine ⟨hcnd, List.nodup_singleton _, ?_⟩
        intro a ha hb
        simp only [List.mem_singleton] at hb
        subst hb
        obtain ⟨x, hx, hxid⟩ := List.mem_map.mp ha
        have hno := List.find?_eq_none.mp hfind x hx
        simp only [beq_iff_eq] at hno
        exact hno hxid
      · intro item2 hmem2
        rcases List.mem_append.mp hmem2 with hin | hnew
        · exact hlines item2 hin
        · simp only [List.mem_singleton] at hnew
          subst hnew
          refine ⟨show (1 : Int) ≤ 1 by norm_num, ?_⟩
          intro q hq hqid
          have hqid2 : q.id = p.id := hqid
          have hqp : q = p := List.inj_on_of_nodup_map hnd hq hp hqid2
          rw [hqp]
          show (1 : Int) ≤ p.stock
          omega

/-- updateQuantity preserves the cart invariant. -/
lemma updateQuantity_ok (products : List Product) (hnd : (products.map Product.id).Nodup)
    (targetId : String) (change : Int) (cart : List CartItem)
    (h : cartOk products cart) :
    cartOk products (updateQuantity products targetId change cart) := by
  obtain ⟨hcnd, hlines⟩ := h
  constructor
  · unfold updateQuantity
    rw [map_id_of_id_preserved _ (updateItem_id products targetId change) cart]
    exact hcnd
  · intro item2 hmem2
    obtain ⟨item, hitem, rfl⟩ := List.mem_map.mp hmem2
    obtain ⟨hq1, hqs⟩ := hlines item hitem
    unfold updateItem
    by_cases hi : (item.id == targetId) = true
    · have hiid : item.id = targetId := by simpa using hi
      simp only [hi, if_true]
      by_cases hlow : item.quantity + change < 1
      · simp only [hlow, if_true]
        exact ⟨hq1, hqs⟩
      · simp only [hlow, if_false, ite_false]
        cases hfp : products.find? (fun q => q.id == targetId) with
        | some product =>
          by_cases hhigh : product.stock < item.quantity + change
          · simp only [hhigh, if_true]
            exact ⟨hq1, hqs⟩
          · simp only [hhigh, if_false, ite_false]
            refine ⟨show (1 : Int) ≤ item.quantity + change by omega, ?_⟩
            intro q hq hqid
            have hqid2 : q.id = item.id := hqid
            have hpid : product.id = targetId := by
              simpa using List.find?_some hfp
            have hpmem : product ∈ products := List.mem_of_find?_eq_some hfp
            have hqp : q = product :=
              List.inj_on_of_nodup_map hnd hq hpmem (by rw [hqid2, hiid, hpid])
            rw [hqp]
            show item.quantity + change ≤ product.stock
            omega
        | none =>
          refine ⟨show (1 : Int) ≤ item.quantity + change by omega, ?_⟩
          intro q hq hqid
          exfalso
          have hqid2 : q.id = item.id := hqid
          have hno := List.find?_eq_none.mp hfp q hq
          simp only [beq_iff_eq] at hno
          exact hno (by rw [hqid2, hiid])
    · simp only [hi, if_false, ite_false]
      exact ⟨hq1, hqs⟩

/-- removeFromCart preserves the cart invariant. -/
lemma removeFromCart_ok (products : List Product) (targetId : String)
    (cart : List CartItem) (h : cartOk products cart) :
    cartOk products (removeFromCart targetId cart) := by
  obtain ⟨hcnd, hlines⟩ := h
  constructor
  · exact List.Nodup.sublist
      (List.Sublist.map CartItem.id (List.filter_sublist cart)) hcnd
  · intro item hm
    exact hlines item (List.mem_of_mem_filter hm)

/-- Every single cart operation preserves the invariant, provided an added product
comes from the fetched list. -/
lemma applyOp_ok (products : List Product) (hnd : (products.map Product.id).Nodup)
    (cart : List CartItem) (h : cartOk products cart) (op : CartOp)
    (hop : ∀ p : Product, op = CartOp.add p → p ∈ products) :
    cartOk products (applyOp products cart op) := by
  cases op with
  | add p => exact addToCart_ok products hnd p (hop p rfl) cart h
  | update targetId change => exact updateQuantity_ok products hnd targetId change cart h
  | remove targetId => exact removeFromCart_ok products targetId cart h

/-- Folding a sequence of catalog-respecting operations preserves the invariant. -/
lemma foldl_ops_ok (products : List Product) (hnd : (products.map Product.id).Nodup)
    (ops : List CartOp) (cart : List CartItem) (h : cartOk products cart)
    (hops : addsFromCatalog products ops = true) :
    cartOk products (ops.foldl (applyOp products) cart) := by
  induction ops generalizing cart with
  | nil => exact h
  | cons op rest ih =>
    have hops2 : addsFromCatalog products rest = true := by
      simp only [addsFromCatalog, List.all_cons, Bool.and_eq_true] at hops
      exact hops.2
    have hop1 : ∀ p : Product, op = CartOp.add p → p ∈ products := by
      intro p hpe
      subst hpe
      simp only [addsFromCatalog, List.all_cons, Bool.and_eq_true] at hops
      simpa using hops.1
    rw [List.foldl_cons]
    exact ih (applyOp products cart op) (applyOp_ok products hnd cart h op hop1) hops2

/-- Claim C5: in every cart reachable from the fetched product list by addToCart,
updateQuantity and removeFromCart, each line has quantity between 1 and the stock
of its product; addToCart refuses a product without stock and refuses an increment
beyond the stock, leaving the cart unchanged, and updateQuantity leaves a line
unchanged for any change that would take its quantity outside the range from 1 to
the stock. -/
theorem cart_quantity_invariant (products : List Product) (ops : List CartOp)
    (hnd : (products.map Product.id).Nodup)
    (hops : addsFromCatalog products ops = true) :
    (∀ item ∈ runOps products ops,
        1 ≤ item.quantity ∧ ∀ p ∈ products, p.id = item.id → item.quantity ≤ p.stock)
    ∧ (∀ (p : Product) (cart : List CartItem), p.stock ≤ 0 → addToCart p cart = cart)
    ∧ (∀ (p : Product) (cart : List CartItem) (existingItem : CartItem),
        cart.find? (fun item => item.id == p.id) = some existingItem →
        p.stock < existingItem.quantity + 1 → addToCart p cart = cart)
    ∧ (∀ (targetId : String) (change : Int) (item : CartItem),
        item.quantity + change < 1 →
        updateItem products targetId change item = item)
    ∧ (∀ (targetId : String) (change : Int) (item : CartItem) (product : Product),
        products.find? (fun q => q.id == targetId) = some product →
        product.stock < item.quantity + change →
        updateItem products targetId change item = item) := by
  refine ⟨(foldl_ops_ok products hnd ops [] (cartOk_nil products) hops).2, ?_, ?_, ?_, ?_⟩
  · intro p cart hle
    simp [addToCart, hle]
  · intro p cart existingItem hfind hex
    unfold addToCart
    by_cases hle : p.stock ≤ 0
    · simp [hle]
    · simp [hle, hfind, hex]
  · intro targetId change item hlow
    unfold updateItem
    by_cases hi : (item.id == targetId) = true
    · simp [hi, hlow]
    · simp [hi]
  · intro targetId change item product hfp hhigh
    unfold updateItem
    by_cases hi : (item.id == targetId) = true
    · by_cases hlow : item.quantity + change < 1
      · simp [hi, hlow]
      · simp [hi, hlow, hfp, hhigh]
    · simp [hi]

/-- Concrete run of cart_quantity_invariant on the sample product list and a sample
operation sequence exercising the bounds. -/
theorem cart_quantity_invariant_witness :
    (∀ item ∈ runOps demoProducts demoOps,
        1 ≤ item.quantity ∧ ∀ p ∈ demoProducts, p.id = item.id → item.quantity ≤ p.stock)
    ∧ (∀ (p : Product) (cart : List CartItem), p.stock ≤ 0 → addToCart p cart = cart)
    ∧ (∀ (p : Product) (cart : List CartItem) (existingItem : CartItem),
        cart.find? (fun item => item.id == p.id) = some existingItem →
        p.stock < existingItem.quantity + 1 → addToCart p cart = cart)
    ∧ (∀ (targetId : String) (change : Int) (item : CartItem),
        item.quantity + change < 1 →
        updateItem demoProducts targetId change item = item)
    ∧ (∀ (targetId : String) (change : Int) (item : CartItem) (product : Product),
        demoProducts.find? (fun q => q.id == targetId) = some product →
        product.stock < item.quantity + change →
        updateItem demoProducts targetId change item = item) :=
  cart_quantity_invariant demoProducts demoOps (by decide) (by decide)
